import Mathlib

/-!
Shallow embedding of the can2vss-feeder driver (src/src/main.cpp).

The file models the code of main.cpp: the publish helper publish_to_kuksa,
the YAML mapping parse loop, the startup handle resolution loop, the main
processing loop with its periodic tick and sleep pacing, the signal handler
and the exit codes of main. The DAG processor, the CAN source and the KUKSA
client are external collaborators; they appear as parameters (a state
machine for the processor, boolean oracles for the broker operations).
-/

namespace Can2VSS

/-- An input signal update as delivered by the CAN source
(a name, value, timestamp record; the payload is abstracted to Int). -/
structure SignalUpdate where
  name : String
  value : Int
deriving Repr, DecidableEq

/-- A VSS signal emission handed to the publisher: a path and its qualified
value, of which we model the validity flag and an abstract payload. -/
structure VSSSignal where
  path : String
  valid : Bool
  value : Int
deriving Repr, DecidableEq

/-- Result of one call to publish_to_kuksa: whether the client set call was
made, and the boolean return value of the function. -/
structure PublishOutcome where
  setCalled : Bool
  result : Bool
deriving Repr, DecidableEq

/-- publish_to_kuksa (main.cpp lines 59-79): if the qualified value is not
valid, log at verbose level and return false without calling the client;
otherwise call client set, and on a non-ok status log an error and return
false; on ok return true. The client set outcome is the oracle setOk. -/
def publish_to_kuksa (setOk : Bool) (sig : VSSSignal) : PublishOutcome :=
  if sig.valid = false then
    { setCalled := false, result := false }
  else if setOk = false then
    { setCalled := true, result := false }
  else
    { setCalled := true, result := true }

/-! ## Mapping configuration parse (main.cpp lines 110-203) -/

/-- The value datatypes of the vssdag value model (spec section 3). -/
inductive ValueType
  | UNSPECIFIED | BOOL
  | INT8 | INT16 | INT32 | INT64
  | UINT8 | UINT16 | UINT32 | UINT64
  | FLOAT | DOUBLE | STRING | STRUCT
deriving Repr, DecidableEq

/-- update trigger enum of a mapping. -/
inductive UpdateTrigger
  | ON_DEPENDENCY | PERIODIC | BOTH
deriving Repr, DecidableEq

/-- The transform of a mapping: closed sum of direct, code and value-map. -/
inductive Transform
  | direct
  | code (expr : String)
  | valueMap (table : List (String × String))
deriving Repr, DecidableEq

/-- The source field of a mapping: a type and name pair. -/
structure SourceSpec where
  type : String
  name : String
deriving Repr, DecidableEq

/-- A SignalMapping as filled in by the parse loop of main.cpp. -/
structure SignalMapping where
  source : Option SourceSpec
  datatype : ValueType
  interval_ms : Int
  is_struct : Bool
  struct_type : Option String
  depends_on : List String
  transform : Transform
  update_trigger : UpdateTrigger
deriving Repr, DecidableEq

/-- The transform node of a YAML mapping entry: which of the keys
code, math, mapping are present, with their payloads. -/
structure TransformNode where
  code : Option String
  math : Option String
  mapping : Option (List (String × String))
deriving Repr, DecidableEq

/-- A YAML mapping entry, abstracted to the fields the parse loop reads.
A missing key is None. Nested keys whose absence would throw in yaml-cpp
(source.type, source.name, the from and to of a mapping item) are modelled
as present whenever their parent is. -/
structure MappingEntry where
  signal : Option String
  source : Option SourceSpec
  datatype : Option String
  interval_ms : Option Int
  struct_type : Option String
  depends_on : List String
  transform : Option TransformNode
  update_trigger : Option String
deriving Repr, DecidableEq

/-- Insertion into a string-keyed table with the semantics of assignment
through unordered_map operator[]: replace the value if the key is present,
otherwise append the binding. -/
def insertPair (tbl : List (String × String)) (k v : String) :
    List (String × String) :=
  if tbl.any (fun p => p.1 = k) then
    tbl.map (fun p => if p.1 = k then (k, v) else p)
  else
    tbl ++ [(k, v)]

/-- The value_map.mappings table built from the from and to pairs of a
transform.mapping list (main.cpp lines 174-181). -/
def buildValueMap (pairs : List (String × String)) : List (String × String) :=
  pairs.foldl (fun tbl p => insertPair tbl p.1 p.2) []

/-- Transform parsing (main.cpp lines 166-187): transform.code wins, then
transform.math (backward compatibility) also yields a code transform, then
transform.mapping yields a value map; otherwise, including an absent
transform key, the result is direct. -/
def parseTransform (t : Option TransformNode) : Transform :=
  match t with
  | none => Transform.direct
  | some tn =>
    match tn.code with
    | some e => Transform.code e
    | none =>
      match tn.math with
      | some e => Transform.code e
      | none =>
        match tn.mapping with
        | some pairs => Transform.valueMap (buildValueMap pairs)
        | none => Transform.direct

/-- Result of parsing one YAML mapping entry: the entry is skipped when the
signal key is missing, otherwise it yields a name and a SignalMapping.
The parse never aborts the process. -/
inductive ParseEntryResult
  | skipped
  | parsed (name : String) (m : SignalMapping)
deriving Repr, DecidableEq

/-- Datatype parse (main.cpp lines 136-148): the datatype string is
looked up through value_type_from_string (of the vssdag library, here the
parameter lookupDatatype); an unknown string logs a warning and yields
UNSPECIFIED, as does an absent datatype key. -/
def parseDatatype (lookupDatatype : String → Option ValueType)
    (d : Option String) : ValueType :=
  match d with
  | some s =>
    match lookupDatatype s with
    | some v => v
    | none => ValueType.UNSPECIFIED
  | none => ValueType.UNSPECIFIED

/-- update_trigger parse (main.cpp lines 190-199): periodic and both map
to their enum values; any other string, unrecognized ones included, maps
to ON_DEPENDENCY; an absent key leaves the default of the
default-constructed SignalMapping. -/
def parseTrigger (dflt : UpdateTrigger) (t : Option String) : UpdateTrigger :=
  match t with
  | none => dflt
  | some s =>
    if s = "periodic" then UpdateTrigger.PERIODIC
    else if s = "both" then UpdateTrigger.BOTH
    else UpdateTrigger.ON_DEPENDENCY

/-- Parse of one mapping entry (main.cpp lines 120-203), one field per
assignment in the source: source if present (lines 130-134), datatype
(136-148), interval_ms with default 0 (149), the struct flags when the
datatype is STRUCT (152-157), depends_on appended to the default list
(160-164), the transform (166-187) and the update trigger (190-199).
defaults is the default-constructed SignalMapping the loop starts from.
A missing signal key skips the entry (lines 121-123); the parse never
aborts the process. -/
def parseEntry (lookupDatatype : String → Option ValueType)
    (defaults : SignalMapping) (e : MappingEntry) : ParseEntryResult :=
  match e.signal with
  | none => ParseEntryResult.skipped
  | some name =>
    let dt := parseDatatype lookupDatatype e.datatype
    ParseEntryResult.parsed name
      { source := match e.source with | some s => some s | none => defaults.source
        datatype := dt
        interval_ms := e.interval_ms.getD 0
        is_struct := if dt = ValueType.STRUCT then true else defaults.is_struct
        struct_type :=
          if dt = ValueType.STRUCT then
            match e.struct_type with
            | some st => some st
            | none => defaults.struct_type
          else defaults.struct_type
        depends_on := defaults.depends_on ++ e.depends_on
        transform := parseTransform e.transform
        update_trigger := parseTrigger defaults.update_trigger e.update_trigger }

/-- Insertion into the dag_mappings table with the semantics of
dag_mappings[signal_name] = mapping: replace on an existing key,
append otherwise. -/
def insertMapping (tbl : List (String × SignalMapping)) (k : String)
    (v : SignalMapping) : List (String × SignalMapping) :=
  if tbl.any (fun p => p.1 = k) then
    tbl.map (fun p => if p.1 = k then (k, v) else p)
  else
    tbl ++ [(k, v)]

/-- The parse loop over all entries of the mappings section, building
dag_mappings. -/
def parseMappings (lookupDatatype : String → Option ValueType)
    (defaults : SignalMapping) (entries : List MappingEntry) :
    List (String × SignalMapping) :=
  entries.foldl (fun tbl e =>
    match parseEntry lookupDatatype defaults e with
    | ParseEntryResult.skipped => tbl
    | ParseEntryResult.parsed k m => insertMapping tbl k m) []

/-- Lookup in a string-keyed association table. -/
def lookupTbl {α : Type} (tbl : List (String × α)) (k : String) : Option α :=
  match tbl.find? (fun p => p.1 = k) with
  | some p => some p.2
  | none => none

/-! ## Driver loop, startup resolution, signal handling (main.cpp 35-42, 244-330) -/

/-- Observable events of the feeder process, in program order. -/
inductive Event
  | resolve (name : String) (ok : Bool)
  | poll (batch : List SignalUpdate)
  | process (batch : List SignalUpdate) (out : List VSSSignal)
  | publish (path : String) (ok : Bool)
  | skipInvalid (path : String)
  | skipUnresolved (path : String)
  | stop
deriving Repr, DecidableEq

/-- Whether an event is a broker path resolution attempt. -/
def Event.isResolve : Event → Bool
  | Event.resolve _ _ => true
  | _ => false

/-- Startup pre-resolution of the output signal handles (main.cpp lines
244-258): one resolver call per node name; a failed resolution logs a
warning and the name is left out of signal_handles. Returns the resolved
names (the keys of signal_handles) and the resolve events in order. -/
def resolveHandles (resolveOk : String → Bool) :
    List String → List String × List Event
  | [] => ([], [])
  | n :: rest =>
    let tail := resolveHandles resolveOk rest
    (if resolveOk n then n :: tail.1 else tail.1,
     Event.resolve n (resolveOk n) :: tail.2)

/-- The handling of one emission inside the publish loop of main.cpp
(lines 277-286 and 304-313): the handle map is consulted first; a path
without a resolved handle is skipped at verbose level; otherwise
publish_to_kuksa runs, which itself skips invalid values and otherwise
calls client set with outcome setOk. -/
def emissionEvent (handles : List String) (setOk : String → Bool)
    (s : VSSSignal) : Event :=
  if s.path ∈ handles then
    if s.valid then Event.publish s.path (setOk s.path)
    else Event.skipInvalid s.path
  else Event.skipUnresolved s.path

/-- The publish phase over the emission list of one processor call. -/
def publishPhase (handles : List String) (setOk : String → Bool)
    (out : List VSSSignal) : List Event :=
  out.map (emissionEvent handles setOk)

/-- One iteration of the main processing loop (main.cpp lines 264-316):
poll the CAN source; if the polled batch is nonempty, run the processor on
it and publish its emissions; then, if at least 50 ms elapsed since the
last periodic check, run the processor on an empty batch and publish those
emissions the same way. The processor is a state machine proc; elapsed is
the elapsed milliseconds since the last periodic check. -/
def iterationEvents {σ : Type}
    (proc : σ → List SignalUpdate → σ × List VSSSignal)
    (handles : List String) (setOk : String → Bool)
    (st : σ) (batch : List SignalUpdate) (elapsed : Nat) :
    σ × List Event :=
  let step1 : σ × List Event :=
    if batch.isEmpty then (st, [])
    else
      let p := proc st batch
      (p.1, Event.process batch p.2 :: publishPhase handles setOk p.2)
  let step2 : σ × List Event :=
    if 50 ≤ elapsed then
      let p := proc step1.1 []
      (p.1, Event.process [] p.2 :: publishPhase handles setOk p.2)
    else (step1.1, [])
  (step2.1, Event.poll batch :: (step1.2 ++ step2.2))

/-- The environment of one loop iteration: the batch the poll will
deliver, the elapsed milliseconds since the last periodic check, and
whether a stop signal arrives while this iteration runs. -/
structure IterInput where
  batch : List SignalUpdate
  elapsed : Nat
  signalDuring : Bool
deriving Repr

/-- Straight-line execution of a list of loop iterations, threading the
processor state and concatenating their events. -/
def runIters {σ : Type}
    (proc : σ → List SignalUpdate → σ × List VSSSignal)
    (handles : List String) (setOk : String → Bool)
    (st : σ) : List IterInput → σ × List Event
  | [] => (st, [])
  | inp :: rest =>
    let it := iterationEvents proc handles setOk st inp.batch inp.elapsed
    let tail := runIters proc handles setOk it.1 rest
    (tail.1, it.2 ++ tail.2)

/-- The while loop of main.cpp (lines 264-330): g_running is observed only
at the top of each iteration; once an iteration starts it runs to
completion, and a stop signal arriving during it is seen at the next
check. When the flag is observed false the loop exits, the CAN source is
stopped and main returns 0. If the iteration schedule is exhausted with
the flag still set, the run has not terminated yet (exit code none). -/
def driverRun {σ : Type}
    (proc : σ → List SignalUpdate → σ × List VSSSignal)
    (handles : List String) (setOk : String → Bool)
    (st : σ) (running : Bool) :
    List IterInput → List Event × Option Nat
  | [] =>
    if running then ([], none) else ([Event.stop], some 0)
  | inp :: rest =>
    if running then
      let it := iterationEvents proc handles setOk st inp.batch inp.elapsed
      let tail := driverRun proc handles setOk it.1 (!inp.signalDuring) rest
      (it.2 ++ tail.1, tail.2)
    else ([Event.stop], some 0)

/-- Erase the broker status flag of a publish event, keeping everything
else: two traces equal up to eraseOk differ only in which publishes the
broker accepted. -/
def eraseOk : Event → Event
  | Event.publish p _ => Event.publish p true
  | e => e

/-- SIGINT signal number. -/
def SIGINT : Nat := 2

/-- SIGTERM signal number. -/
def SIGTERM : Nat := 15

/-- signal_handler (main.cpp lines 37-42): an interrupt or terminate
signal clears the g_running flag; any other signal leaves it unchanged. -/
def signal_handler (sig : Nat) (g_running : Bool) : Bool :=
  if sig = SIGINT ∨ sig = SIGTERM then false else g_running

/-- Sleep at the bottom of the loop (main.cpp lines 318-322): sleep for
the remainder of the 10 ms processing interval when the body finished
early, otherwise not at all. Durations in milliseconds. -/
def sleepDuration (loop_duration : Nat) : Nat :=
  if loop_duration < 10 then 10 - loop_duration else 0

/-! ## main: arguments, initialization failures, exit codes
(main.cpp lines 81-115, 205-242, 326-330) -/

/-- The startup conditions main depends on: the argument count (argc,
including the program name) and the success of each initialization step. -/
structure StartupEnv where
  argc : Nat
  hasMappingsSection : Bool
  dagInitOk : Bool
  canInitOk : Bool
  resolverOk : Bool
  clientOk : Bool
deriving Repr, DecidableEq

/-- Why main returned. -/
inductive ExitReason
  | usageError
  | noMappings
  | dagInitFailed
  | canInitFailed
  | resolverFailed
  | clientFailed
  | gracefulStop
deriving Repr, DecidableEq

/-- The exit path of main: argc must be exactly 5 (program name plus the
four positional arguments dbc_file, mapping_file, can_interface,
broker_address), else usage is printed and 1 returned; each failed
initialization step returns 1; after a graceful stop of the loop main
returns 0. Second component: whether usage was printed. -/
def mainExit (e : StartupEnv) : ExitReason × Nat × Bool :=
  if e.argc ≠ 5 then (ExitReason.usageError, 1, true)
  else if e.hasMappingsSection = false then (ExitReason.noMappings, 1, false)
  else if e.dagInitOk = false then (ExitReason.dagInitFailed, 1, false)
  else if e.canInitOk = false then (ExitReason.canInitFailed, 1, false)
  else if e.resolverOk = false then (ExitReason.resolverFailed, 1, false)
  else if e.clientOk = false then (ExitReason.clientFailed, 1, false)
  else (ExitReason.gracefulStop, 0, false)

/-! ## Concrete instances used in counterexamples and witnesses -/

/-- A concrete default-constructed SignalMapping (the library default the
parse loop starts from; its exact field defaults do not influence the
properties proved here, which either quantify over the defaults or
concern fields the parse loop always assigns). -/
def defaultMapping : SignalMapping :=
  { source := none
    datatype := ValueType.UNSPECIFIED
    interval_ms := 0
    is_struct := false
    struct_type := none
    depends_on := []
    transform := Transform.direct
    update_trigger := UpdateTrigger.ON_DEPENDENCY }

/-- A mapping entry whose datatype string is unknown to
value_type_from_string. -/
def entryUnknownDatatype : MappingEntry :=
  { signal := some "Vehicle.Speed"
    source := none
    datatype := some "floatX"
    interval_ms := none
    struct_type := none
    depends_on := []
    transform := none
    update_trigger := none }

/-- A mapping entry with an unknown datatype string and an unrecognized
update_trigger string. -/
def entryUnknownBoth : MappingEntry :=
  { signal := some "S"
    source := none
    datatype := some "floatX"
    interval_ms := none
    struct_type := none
    depends_on := []
    transform := none
    update_trigger := some "sometimes" }

/-- A mapping entry with no signal key. -/
def entryNoSignal : MappingEntry :=
  { signal := none
    source := none
    datatype := some "float"
    interval_ms := none
    struct_type := none
    depends_on := []
    transform := none
    update_trigger := none }

/-! # Theorems -/

/-! ## Helper lemmas -/

/-- A publish event in a publish phase comes from an emission in the
processor output whose path resolved and whose qualified value is valid,
and carries the broker status for that path. -/
theorem mem_publishPhase_publish
    (handles : List String) (setOk : String → Bool) (out : List VSSSignal)
    (p : String) (ok : Bool)
    (h : Event.publish p ok ∈ publishPhase handles setOk out) :
    ∃ s, s ∈ out ∧ s.path = p ∧ s.valid = true ∧ p ∈ handles ∧ ok = setOk p := by
  simp only [publishPhase, List.mem_map] at h
  obtain ⟨s, hs, he⟩ := h
  unfold emissionEvent at he
  by_cases hmem : s.path ∈ handles
  · rw [if_pos hmem] at he
    by_cases hv : s.valid = true
    · rw [if_pos hv] at he
      injection he with h1 h2
      exact ⟨s, hs, h1, hv, h1 ▸ hmem, by rw [← h1, h2]⟩
    · rw [if_neg hv] at he
      exact absurd he (by simp)
  · rw [if_neg hmem] at he
    exact absurd he (by simp)

/-- When the run flag is already false, the loop body never runs: the
source is stopped and the process exits with code 0. -/
theorem driverRun_not_running {σ : Type}
    (proc : σ → List SignalUpdate → σ × List VSSSignal)
    (handles : List String) (setOk : String → Bool) (st : σ)
    (inputs : List IterInput) :
    driverRun proc handles setOk st false inputs = ([Event.stop], some 0) := by
  cases inputs <;> simp [driverRun]

/-! ## Claim C1 -/

/-- Claim C1: an emission whose qualified value is not valid is never
handed to the broker: publish_to_kuksa returns false without calling
client set, and every publish event of a publish phase comes from an
emission with a valid value. -/
theorem invalid_value_never_published :
    (∀ (setOk : Bool) (sig : VSSSignal), sig.valid = false →
       publish_to_kuksa setOk sig = { setCalled := false, result := false }) ∧
    (∀ (handles : List String) (setOk : String → Bool) (out : List VSSSignal)
       (p : String) (ok : Bool),
       Event.publish p ok ∈ publishPhase handles setOk out →
       ∃ s, s ∈ out ∧ s.path = p ∧ s.valid = true) := by
  constructor
  · intro setOk sig h
    simp [publish_to_kuksa, h]
  · intro handles setOk out p ok h
    obtain ⟨s, hs, hp, hv, _, _⟩ := mem_publishPhase_publish handles setOk out p ok h
    exact ⟨s, hs, hp, hv⟩

/-- Witness for claim C1 at concrete inputs. -/
theorem invalid_value_never_published_witness :
    publish_to_kuksa true { path := "Vehicle.Speed", valid := false, value := 0 } =
      { setCalled := false, result := false } ∧
    ∃ s, s ∈ ([{ path := "A", valid := true, value := 1 }] : List VSSSignal) ∧
      s.path = "A" ∧ s.valid = true :=
  ⟨invalid_value_never_published.1 true
      { path := "Vehicle.Speed", valid := false, value := 0 } rfl,
   invalid_value_never_published.2 ["A"] (fun _ => true)
      [{ path := "A", valid := true, value := 1 }] "A" true
      (by simp [publishPhase, emissionEvent])⟩

/-! ## Claim C2 -/

/-- Claim C2: main takes exactly four positional arguments (argc = 5
counting the program name); with any other count it prints usage and
returns 1; each initialization failure (missing mappings section, DAG
processor, CAN source, resolver, client) returns 1 without usage; when
all initialization succeeds main reaches the loop and, on graceful stop,
returns 0. -/
theorem main_args_and_exit_codes :
    (∀ e : StartupEnv, e.argc ≠ 5 →
       mainExit e = (ExitReason.usageError, 1, true)) ∧
    (∀ e : StartupEnv, e.argc = 5 →
       (e.hasMappingsSection = false ∨ e.dagInitOk = false ∨ e.canInitOk = false ∨
        e.resolverOk = false ∨ e.clientOk = false) →
       (mainExit e).2.1 = 1 ∧ (mainExit e).2.2 = false) ∧
    (∀ e : StartupEnv, e.argc = 5 → e.hasMappingsSection = true →
       e.dagInitOk = true → e.canInitOk = true → e.resolverOk = true →
       e.clientOk = true → mainExit e = (ExitReason.gracefulStop, 0, false)) ∧
    (∀ {σ : Type} (proc : σ → List SignalUpdate → σ × List VSSSignal)
       (handles : List String) (setOk : String → Bool) (st : σ)
       (inputs : List IterInput),
       driverRun proc handles setOk st false inputs = ([Event.stop], some 0)) := by
  refine ⟨?_, ?_, ?_, ?_⟩
  · intro e h
    simp [mainExit, h]
  · rintro ⟨argc, a, b, c, d, f⟩ h5 hfail
    subst h5
    cases a <;> cases b <;> cases c <;> cases d <;> cases f <;>
      simp_all [mainExit]
  · rintro ⟨argc, a, b, c, d, f⟩ h5 ha hb hc hd hf
    subst h5
    simp_all [mainExit]
  · intro σ proc handles setOk st inputs
    exact driverRun_not_running proc handles setOk st inputs

/-- Witness for claim C2 at concrete inputs. -/
theorem main_args_and_exit_codes_witness :
    mainExit { argc := 3, hasMappingsSection := true, dagInitOk := true,
               canInitOk := true, resolverOk := true, clientOk := true } =
      (ExitReason.usageError, 1, true) ∧
    (mainExit { argc := 5, hasMappingsSection := true, dagInitOk := false,
                canInitOk := true, resolverOk := true, clientOk := true }).2.1 = 1 ∧
    mainExit { argc := 5, hasMappingsSection := true, dagInitOk := true,
               canInitOk := true, resolverOk := true, clientOk := true } =
      (ExitReason.gracefulStop, 0, false) ∧
    driverRun (fun (_ : Unit) _ => ((), ([] : List VSSSignal))) [] (fun _ => true)
        () false [] = ([Event.stop], some 0) :=
  ⟨main_args_and_exit_codes.1 _ (by decide),
   (main_args_and_exit_codes.2.1 _ rfl (Or.inr (Or.inl rfl))).1,
   main_args_and_exit_codes.2.2.1 _ rfl rfl rfl rfl rfl rfl,
   main_args_and_exit_codes.2.2.2 (fun (_ : Unit) _ => ((), [])) [] (fun _ => true) () []⟩

/-! ## Claim C9 -/

/-- Claim C9: transform parsing is a closed choice: a code key yields a
code transform; with no code key, a math key also yields a code transform
(backward-compatibility alias); with neither, a mapping key yields a
value map built from the from and to pairs; anything else, including an
absent transform key, yields direct. -/
theorem transform_parse_closed_choice :
    (parseTransform none = Transform.direct) ∧
    (∀ (tn : TransformNode) (e : String), tn.code = some e →
       parseTransform (some tn) = Transform.code e) ∧
    (∀ (tn : TransformNode) (e : String), tn.code = none → tn.math = some e →
       parseTransform (some tn) = Transform.code e) ∧
    (∀ (tn : TransformNode) (ps : List (String × String)),
       tn.code = none → tn.math = none → tn.mapping = some ps →
       parseTransform (some tn) = Transform.valueMap (buildValueMap ps)) ∧
    (∀ tn : TransformNode, tn.code = none → tn.math = none → tn.mapping = none →
       parseTransform (some tn) = Transform.direct) := by
  refine ⟨rfl, ?_, ?_, ?_, ?_⟩ <;>
    · rintro ⟨c, m, mp⟩
      intros
      simp_all [parseTransform]

/-- Witness for claim C9 at concrete transform nodes. -/
theorem transform_parse_closed_choice_witness :
    parseTransform (some ⟨some "x * 2", none, none⟩) = Transform.code "x * 2" ∧
    parseTransform (some ⟨none, some "x + 1", none⟩) = Transform.code "x + 1" ∧
    parseTransform (some ⟨none, none, some [("0", "P"), ("1", "R")]⟩) =
      Transform.valueMap (buildValueMap [("0", "P"), ("1", "R")]) ∧
    parseTransform (some ⟨none, none, none⟩) = Transform.direct :=
  ⟨transform_parse_closed_choice.2.1 _ "x * 2" rfl,
   transform_parse_closed_choice.2.2.1 _ "x + 1" rfl rfl,
   transform_parse_closed_choice.2.2.2.1 _ [("0", "P"), ("1", "R")] rfl rfl rfl,
   transform_parse_closed_choice.2.2.2.2 _ rfl rfl rfl⟩

/-! ## Claim C10 -/

/-- find? for a key over a table whose matching entries were all replaced
by the new binding returns the new binding, provided some entry matched. -/
theorem find?_key_map_set {α : Type} (k : String) (v : α) :
    ∀ tbl : List (String × α),
      tbl.any (fun p => p.1 = k) = true →
      (tbl.map (fun p => if p.1 = k then (k, v) else p)).find?
          (fun p => p.1 = k) = some (k, v) := by
  intro tbl
  induction tbl with
  | nil => simp
  | cons p rest ih =>
    intro h
    by_cases hp : p.1 = k
    · simp [hp]
    · simp only [List.any_cons, Bool.or_eq_true, decide_eq_true_eq] at h
      rcases h with h | h
      · exact absurd h hp
      · simp only [List.map_cons, if_neg hp]
        rw [List.find?_cons_of_neg _ (by simpa using hp)]
        exact ih h

/-- find? distributes over append when the first part has no match. -/
theorem find?_append_of_none {α : Type} (pred : α → Bool) :
    ∀ l1 l2 : List α, l1.find? pred = none →
      (l1 ++ l2).find? pred = l2.find? pred := by
  intro l1 l2
  induction l1 with
  | nil => simp
  | cons a rest ih =>
    intro h
    by_cases ha : pred a = true
    · rw [List.find?_cons_of_pos _ ha] at h
      exact absurd h (by simp)
    · rw [List.find?_cons_of_neg _ ha] at h
      rw [List.cons_append, List.find?_cons_of_neg _ ha]
      exact ih h

/-- A list with no entry satisfying a predicate has no find? result. -/
theorem find?_eq_none_of_any_false {α : Type} (pred : α → Bool) :
    ∀ l : List α, l.any pred = false → l.find? pred = none := by
  intro l
  induction l with
  | nil => simp
  | cons a rest ih =>
    intro h
    simp only [List.any_cons, Bool.or_eq_false_iff] at h
    rw [List.find?_cons_of_neg _ (by simp [h.1]), ih h.2]

/-- Assignment through dag_mappings with operator[] semantics makes the
assigned binding the one lookup finds. -/
theorem lookupTbl_insertMapping (tbl : List (String × SignalMapping))
    (k : String) (v : SignalMapping) :
    lookupTbl (insertMapping tbl k v) k = some v := by
  unfold insertMapping
  split
  · rename_i h
    unfold lookupTbl
    rw [find?_key_map_set k v tbl h]
  · rename_i h
    unfold lookupTbl
    rw [find?_append_of_none _ tbl _
      (find?_eq_none_of_any_false _ tbl (Bool.eq_false_iff.mpr h))]
    simp

/-- Claim C10: a later mapping entry with the same signal name silently
replaces the earlier one in dag_mappings: the table insertion overwrites
on an existing key, and after parsing a list of entries ending in an
entry for signal k, lookup of k yields that last mapping whatever the
earlier entries declared; no duplicate-name error exists. -/
theorem duplicate_signal_last_wins :
    (∀ (tbl : List (String × SignalMapping)) (k : String) (v : SignalMapping),
       lookupTbl (insertMapping tbl k v) k = some v) ∧
    (∀ (lookupDt : String → Option ValueType) (defaults : SignalMapping)
       (entries : List MappingEntry) (e : MappingEntry) (k : String)
       (m : SignalMapping),
       parseEntry lookupDt defaults e = ParseEntryResult.parsed k m →
       lookupTbl (parseMappings lookupDt defaults (entries ++ [e])) k = some m) := by
  constructor
  · exact lookupTbl_insertMapping
  · intro lookupDt defaults entries e k m h
    unfold parseMappings
    rw [List.foldl_append]
    simp only [List.foldl_cons, List.foldl_nil, h]
    exact lookupTbl_insertMapping _ k m

/-- Witness for claim C10: two entries declaring the same signal, the
later value wins. -/
theorem duplicate_signal_last_wins_witness :
    lookupTbl (insertMapping [("S", defaultMapping)] "S"
        { defaultMapping with interval_ms := 7 }) "S" =
      some { defaultMapping with interval_ms := 7 } ∧
    lookupTbl (parseMappings (fun _ => none) defaultMapping
        ([entryUnknownDatatype,
          { entryUnknownDatatype with interval_ms := some 7 }])) "Vehicle.Speed" =
      some { defaultMapping with interval_ms := 7 } := by
  constructor
  · exact duplicate_signal_last_wins.1 [("S", defaultMapping)] "S"
      { defaultMapping with interval_ms := 7 }
  · exact duplicate_signal_last_wins.2 (fun _ => none) defaultMapping
      [entryUnknownDatatype] { entryUnknownDatatype with interval_ms := some 7 }
      "Vehicle.Speed" { defaultMapping with interval_ms := 7 } (by decide)

/-! ## Claim C3 -/

/-- Counterexample to claim C3: none of the three named configuration
errors is fatal in the parse loop. An entry whose datatype string is
unknown to value_type_from_string is kept with datatype UNSPECIFIED and
is still inserted into dag_mappings; an entry whose update_trigger string
is unrecognized is kept with trigger ON_DEPENDENCY; an entry missing the
signal key is skipped. In every case the parse yields a result and the
process proceeds to initialization with that table. -/
theorem config_error_fatal_cex :
    parseEntry (fun _ => none) defaultMapping entryUnknownDatatype =
      ParseEntryResult.parsed "Vehicle.Speed" defaultMapping ∧
    parseMappings (fun _ => none) defaultMapping [entryUnknownDatatype] =
      [("Vehicle.Speed", defaultMapping)] ∧
    (∃ m, parseEntry (fun _ => none) defaultMapping entryUnknownBoth =
       ParseEntryResult.parsed "S" m ∧
       m.datatype = ValueType.UNSPECIFIED ∧
       m.update_trigger = UpdateTrigger.ON_DEPENDENCY) ∧
    parseEntry (fun _ => none) defaultMapping entryNoSignal =
      ParseEntryResult.skipped := by
  refine ⟨by decide, by decide, ⟨defaultMapping, by decide, rfl, rfl⟩, by decide⟩

/-- Claim C3 (amended): an unknown datatype string, an unknown
update_trigger string, or a missing signal key in a mapping entry is
handled locally by the parse loop and is not fatal: the entry is
respectively kept with datatype UNSPECIFIED, kept with trigger
ON_DEPENDENCY, or skipped; parsing every entry yields skipped or a
parsed mapping, never termination. -/
theorem config_error_recovery :
    ∀ (lookupDt : String → Option ValueType) (defaults : SignalMapping)
      (e : MappingEntry),
      (e.signal = none → parseEntry lookupDt defaults e = ParseEntryResult.skipped) ∧
      (∀ name, e.signal = some name →
        ∃ m, parseEntry lookupDt defaults e = ParseEntryResult.parsed name m ∧
          (∀ s, e.datatype = some s → lookupDt s = none →
             m.datatype = ValueType.UNSPECIFIED) ∧
          (∀ t, e.update_trigger = some t → t ≠ "periodic" → t ≠ "both" →
             m.update_trigger = UpdateTrigger.ON_DEPENDENCY)) := by
  intro lookupDt defaults e
  constructor
  · intro h
    simp [parseEntry, h]
  · intro name h
    unfold parseEntry
    rw [h]
    refine ⟨_, rfl, ?_, ?_⟩
    · intro s hs hlk
      simp [parseDatatype, hs, hlk]
    · intro t ht hp hb
      simp [parseTrigger, ht, hp, hb]

/-- Witness for the amended claim C3 at concrete entries. -/
theorem config_error_recovery_witness :
    parseEntry (fun _ => none) defaultMapping entryNoSignal =
      ParseEntryResult.skipped ∧
    ∃ m, parseEntry (fun _ => none) defaultMapping entryUnknownBoth =
      ParseEntryResult.parsed "S" m ∧
      m.datatype = ValueType.UNSPECIFIED ∧
      m.update_trigger = UpdateTrigger.ON_DEPENDENCY := by
  refine ⟨(config_error_recovery (fun _ => none) defaultMapping entryNoSignal).1 rfl, ?_⟩
  obtain ⟨m, hm, hdt, htr⟩ :=
    (config_error_recovery (fun _ => none) defaultMapping entryUnknownBoth).2 "S" rfl
  exact ⟨m, hm, hdt "floatX" rfl rfl,
    htr "sometimes" rfl (by decide) (by decide)⟩

/-! ## Iteration structure lemmas -/

/-- The event trace of one loop iteration, in closed form: the poll
first, then, when the polled batch is nonempty, the processor call on it
followed by the publish phase over its output, then, when at least 50 ms
elapsed since the last periodic check, the processor call on the empty
batch followed by the publish phase over its output. -/
theorem iterationEvents_shape {σ : Type}
    (proc : σ → List SignalUpdate → σ × List VSSSignal)
    (handles : List String) (setOk : String → Bool)
    (st : σ) (batch : List SignalUpdate) (elapsed : Nat) :
    (iterationEvents proc handles setOk st batch elapsed).2 =
      Event.poll batch ::
        ((if batch.isEmpty then [] else
            Event.process batch (proc st batch).2 ::
              publishPhase handles setOk (proc st batch).2) ++
         (if 50 ≤ elapsed then
            Event.process []
                (proc (if batch.isEmpty then st else (proc st batch).1) []).2 ::
              publishPhase handles setOk
                (proc (if batch.isEmpty then st else (proc st batch).1) []).2
          else [])) := by
  unfold iterationEvents
  by_cases hb : batch.isEmpty <;> by_cases he : 50 ≤ elapsed <;> simp [hb, he]

/-- The processor state after one loop iteration, in closed form. -/
theorem iterationEvents_state {σ : Type}
    (proc : σ → List SignalUpdate → σ × List VSSSignal)
    (handles : List String) (setOk : String → Bool)
    (st : σ) (batch : List SignalUpdate) (elapsed : Nat) :
    (iterationEvents proc handles setOk st batch elapsed).1 =
      (if 50 ≤ elapsed then
        (proc (if batch.isEmpty then st else (proc st batch).1) []).1
       else if batch.isEmpty then st else (proc st batch).1) := by
  unfold iterationEvents
  by_cases hb : batch.isEmpty <;> by_cases he : 50 ≤ elapsed <;> simp [hb, he]

/-- Each emission of a publish phase yields one of exactly three events:
a publish through the resolved handle, a skip of an invalid value, or a
skip of an unresolved path. -/
theorem emissionEvent_cases (handles : List String) (setOk : String → Bool)
    (s : VSSSignal) :
    emissionEvent handles setOk s = Event.publish s.path (setOk s.path) ∨
    emissionEvent handles setOk s = Event.skipInvalid s.path ∨
    emissionEvent handles setOk s = Event.skipUnresolved s.path := by
  unfold emissionEvent
  by_cases h1 : s.path ∈ handles
  · by_cases h2 : s.valid = true
    · left
      rw [if_pos h1, if_pos h2]
    · right; left
      rw [if_pos h1, if_neg h2]
  · right; right
    rw [if_neg h1]

/-- A publish phase contains no processor-call events. -/
theorem process_not_mem_publishPhase (handles : List String)
    (setOk : String → Bool) (out : List VSSSignal)
    (b : List SignalUpdate) (o : List VSSSignal) :
    Event.process b o ∉ publishPhase handles setOk out := by
  intro h
  simp only [publishPhase, List.mem_map] at h
  obtain ⟨s, _, he⟩ := h
  rcases emissionEvent_cases handles setOk s with hc | hc | hc <;>
    rw [hc] at he <;> exact absurd he (by simp)

/-- A publish phase contains no resolve events. -/
theorem publishPhase_no_resolve (handles : List String)
    (setOk : String → Bool) (out : List VSSSignal) :
    ∀ e ∈ publishPhase handles setOk out, e.isResolve = false := by
  intro e he
  simp only [publishPhase, List.mem_map] at he
  obtain ⟨s, _, hs⟩ := he
  rcases emissionEvent_cases handles setOk s with hc | hc | hc <;>
    rw [hc] at hs <;> rw [← hs] <;> rfl

/-! ## Claim C6 -/

/-- Claim C6: each loop iteration polls first, then runs the processor on
the nonempty polled batch and publishes its emissions, then runs the
periodic empty-batch tick (when due) and publishes its emissions; and
every publish event of the iteration is accounted for by a processor call
of the same iteration on the polled batch or on the empty periodic batch,
through a valid emitted value. -/
theorem loop_phase_order :
    ∀ {σ : Type} (proc : σ → List SignalUpdate → σ × List VSSSignal)
      (handles : List String) (setOk : String → Bool) (st : σ)
      (batch : List SignalUpdate) (elapsed : Nat),
      (∃ evB evP,
        (iterationEvents proc handles setOk st batch elapsed).2 =
          Event.poll batch :: (evB ++ evP) ∧
        (if batch.isEmpty then evB = []
         else evB = Event.process batch (proc st batch).2 ::
                publishPhase handles setOk (proc st batch).2) ∧
        (if 50 ≤ elapsed then
           evP = Event.process []
               (proc (if batch.isEmpty then st else (proc st batch).1) []).2 ::
             publishPhase handles setOk
               (proc (if batch.isEmpty then st else (proc st batch).1) []).2
         else evP = [])) ∧
      (∀ (p : String) (ok : Bool),
        Event.publish p ok ∈ (iterationEvents proc handles setOk st batch elapsed).2 →
        ∃ b out,
          Event.process b out ∈ (iterationEvents proc handles setOk st batch elapsed).2 ∧
          (b = batch ∨ b = ([] : List SignalUpdate)) ∧
          ∃ s, s ∈ out ∧ s.path = p ∧ s.valid = true) := by
  intro σ proc handles setOk st batch elapsed
  constructor
  · refine ⟨_, _, iterationEvents_shape proc handles setOk st batch elapsed, ?_, ?_⟩
    · split <;> rfl
    · split <;> rfl
  · intro p ok h
    rw [iterationEvents_shape] at h
    rcases List.mem_cons.mp h with h | h
    · exact absurd h (by simp)
    rcases List.mem_append.mp h with h | h
    · by_cases hb : batch.isEmpty
      · rw [if_pos hb] at h
        exact absurd h (List.not_mem_nil _)
      · rw [if_neg hb] at h
        rcases List.mem_cons.mp h with h | h
        · exact absurd h (by simp)
        · obtain ⟨s, hs, hp, hv, _, _⟩ := mem_publishPhase_publish _ _ _ _ _ h
          refine ⟨batch, (proc st batch).2, ?_, Or.inl rfl, s, hs, hp, hv⟩
          rw [iterationEvents_shape]
          refine List.mem_cons_of_mem _ (List.mem_append_left _ ?_)
          rw [if_neg hb]
          exact List.mem_cons_self _ _
    · by_cases he : 50 ≤ elapsed
      · rw [if_pos he] at h
        rcases List.mem_cons.mp h with h | h
        · exact absurd h (by simp)
        · obtain ⟨s, hs, hp, hv, _, _⟩ := mem_publishPhase_publish _ _ _ _ _ h
          refine ⟨[], _, ?_, Or.inr rfl, s, hs, hp, hv⟩
          rw [iterationEvents_shape]
          refine List.mem_cons_of_mem _ (List.mem_append_right _ ?_)
          rw [if_pos he]
          exact List.mem_cons_self _ _
      · rw [if_neg he] at h
        exact absurd h (List.not_mem_nil _)

/-- Witness for claim C6: a concrete iteration whose publish event traces
back to the processor call on the polled batch. -/
theorem loop_phase_order_witness :
    ∃ b out,
      Event.process b out ∈
        (iterationEvents (fun (_ : Unit) _ => ((), [⟨"A", true, 1⟩]))
          ["A"] (fun _ => true) () [⟨"u", 0⟩] 0).2 ∧
      (b = [⟨"u", 0⟩] ∨ b = ([] : List SignalUpdate)) ∧
      ∃ s, s ∈ out ∧ s.path = "A" ∧ s.valid = true :=
  (loop_phase_order (fun (_ : Unit) _ => ((), [⟨"A", true, 1⟩]))
      ["A"] (fun _ => true) () [⟨"u", 0⟩] 0).2 "A" true (by decide)

/-! ## Claim C7 -/

/-- Claim C7: whenever at least 50 ms elapsed since the last periodic
check, the iteration runs the processor on an empty batch and publishes
its emissions through the same publish phase as any batch-driven
emission; when fewer than 50 ms elapsed, no empty-batch processor call
occurs; and the end-of-loop sleep lasts at most 10 ms and, when the body
finished within the 10 ms processing interval, pads the iteration to
exactly 10 ms, so successive iterations are then at most 10 ms apart. -/
theorem periodic_tick_and_sleep :
    (∀ {σ : Type} (proc : σ → List SignalUpdate → σ × List VSSSignal)
       (handles : List String) (setOk : String → Bool) (st : σ)
       (batch : List SignalUpdate) (elapsed : Nat),
       (50 ≤ elapsed →
         (iterationEvents proc handles setOk st batch elapsed).2 =
           Event.poll batch ::
             ((if batch.isEmpty then [] else
                 Event.process batch (proc st batch).2 ::
                   publishPhase handles setOk (proc st batch).2) ++
              (Event.process []
                  (proc (if batch.isEmpty then st else (proc st batch).1) []).2 ::
                publishPhase handles setOk
                  (proc (if batch.isEmpty then st else (proc st batch).1) []).2))) ∧
       (elapsed < 50 → ∀ out : List VSSSignal,
         Event.process [] out ∉ (iterationEvents proc handles setOk st batch elapsed).2)) ∧
    (∀ d : Nat, sleepDuration d ≤ 10) ∧
    (∀ d : Nat, d ≤ 10 → d + sleepDuration d = 10) := by
  refine ⟨?_, ?_, ?_⟩
  · intro σ proc handles setOk st batch elapsed
    constructor
    · intro he
      rw [iterationEvents_shape, if_pos he]
    · intro he out h
      rw [iterationEvents_shape, if_neg (by omega : ¬ 50 ≤ elapsed)] at h
      rcases List.mem_cons.mp h with h | h
      · exact absurd h (by simp)
      rw [List.append_nil] at h
      by_cases hb : batch.isEmpty
      · rw [if_pos hb] at h
        exact absurd h (List.not_mem_nil _)
      · rw [if_neg hb] at h
        rcases List.mem_cons.mp h with h | h
        · have hbe : batch = [] := by
            injection h with h1 h2
            exact h1.symm
          rw [hbe] at hb
          exact absurd rfl hb
        · exact process_not_mem_publishPhase _ _ _ _ _ h
  · intro d
    unfold sleepDuration
    split <;> omega
  · intro d hd
    unfold sleepDuration
    split <;> omega

/-- Witness for claim C7 at concrete inputs: a due periodic tick with an
empty polled batch, an undue one with no empty-batch processor call, and
the sleep padding a 3 ms body to 10 ms. -/
theorem periodic_tick_and_sleep_witness :
    (iterationEvents (fun (_ : Unit) _ => ((), [⟨"A", true, 1⟩]))
        ["A"] (fun _ => true) () [] 50).2 =
      Event.poll [] ::
        (([] : List Event) ++
         (Event.process [] [⟨"A", true, 1⟩] ::
           publishPhase ["A"] (fun _ => true) [⟨"A", true, 1⟩])) ∧
    Event.process [] ([] : List VSSSignal) ∉
      (iterationEvents (fun (_ : Unit) _ => ((), ([] : List VSSSignal)))
        [] (fun _ => true) () [] 49).2 ∧
    3 + sleepDuration 3 = 10 := by
  refine ⟨?_, ?_, ?_⟩
  · exact (periodic_tick_and_sleep.1 (fun (_ : Unit) _ => ((), [⟨"A", true, 1⟩]))
      ["A"] (fun _ => true) () [] 50).1 (by omega)
  · exact (periodic_tick_and_sleep.1 (fun (_ : Unit) _ => ((), []))
      [] (fun _ => true) () [] 49).2 (by omega) []
  · exact periodic_tick_and_sleep.2.2 3 (by omega)

/-! ## Claim C5 -/

/-- Unfolding of the running loop on a further iteration. -/
theorem driverRun_cons {σ : Type}
    (proc : σ → List SignalUpdate → σ × List VSSSignal)
    (handles : List String) (setOk : String → Bool) (st : σ)
    (inp : IterInput) (rest : List IterInput) :
    driverRun proc handles setOk st true (inp :: rest) =
      ((iterationEvents proc handles setOk st inp.batch inp.elapsed).2 ++
         (driverRun proc handles setOk
           (iterationEvents proc handles setOk st inp.batch inp.elapsed).1
           (!inp.signalDuring) rest).1,
       (driverRun proc handles setOk
         (iterationEvents proc handles setOk st inp.batch inp.elapsed).1
         (!inp.signalDuring) rest).2) := rfl

/-- Unfolding of the running loop on an exhausted schedule. -/
theorem driverRun_nil_running {σ : Type}
    (proc : σ → List SignalUpdate → σ × List VSSSignal)
    (handles : List String) (setOk : String → Bool) (st : σ) :
    driverRun proc handles setOk st true [] = ([], none) := rfl

/-- No event of a loop iteration is a resolve event. -/
theorem iteration_no_resolve {σ : Type}
    (proc : σ → List SignalUpdate → σ × List VSSSignal)
    (handles : List String) (setOk : String → Bool)
    (st : σ) (batch : List SignalUpdate) (elapsed : Nat) :
    ∀ e ∈ (iterationEvents proc handles setOk st batch elapsed).2,
      e.isResolve = false := by
  intro e he
  rw [iterationEvents_shape] at he
  rcases List.mem_cons.mp he with he | he
  · rw [he]; rfl
  rcases List.mem_append.mp he with he | he
  · by_cases hb : batch.isEmpty
    · rw [if_pos hb] at he
      exact absurd he (List.not_mem_nil _)
    · rw [if_neg hb] at he
      rcases List.mem_cons.mp he with he | he
      · rw [he]; rfl
      · exact publishPhase_no_resolve _ _ _ e he
  · by_cases hp : 50 ≤ elapsed
    · rw [if_pos hp] at he
      rcases List.mem_cons.mp he with he | he
      · rw [he]; rfl
      · exact publishPhase_no_resolve _ _ _ e he
    · rw [if_neg hp] at he
      exact absurd he (List.not_mem_nil _)

/-- No event of the whole processing loop is a resolve event. -/
theorem driverRun_no_resolve {σ : Type}
    (proc : σ → List SignalUpdate → σ × List VSSSignal)
    (handles : List String) (setOk : String → Bool) :
    ∀ (inputs : List IterInput) (st : σ) (running : Bool),
      ∀ e ∈ (driverRun proc handles setOk st running inputs).1,
        e.isResolve = false := by
  intro inputs
  induction inputs with
  | nil =>
    intro st running e he
    cases running
    · rw [driverRun_not_running] at he
      rcases List.mem_cons.mp he with he | he
      · rw [he]; rfl
      · exact absurd he (List.not_mem_nil _)
    · rw [driverRun_nil_running] at he
      exact absurd he (List.not_mem_nil _)
  | cons inp rest ih =>
    intro st running e he
    cases running
    · rw [driverRun_not_running] at he
      rcases List.mem_cons.mp he with he | he
      · rw [he]; rfl
      · exact absurd he (List.not_mem_nil _)
    · rw [driverRun_cons] at he
      rcases List.mem_append.mp he with he | he
      · exact iteration_no_resolve _ _ _ _ _ _ e he
      · exact ih _ _ e he

/-- Claim C5: path resolution against the broker happens exactly once per
output node at startup (the startup trace is exactly one resolve event
per node name, in order, and signal_handles keeps exactly the names whose
resolution succeeded); the processing loop never emits a resolve event;
and an emission whose path has no resolved handle is skipped, not
published. -/
theorem resolve_once_at_startup :
    (∀ (resolveOk : String → Bool) (names : List String),
       (resolveHandles resolveOk names).2 =
         names.map (fun n => Event.resolve n (resolveOk n)) ∧
       (resolveHandles resolveOk names).1 = names.filter resolveOk) ∧
    (∀ {σ : Type} (proc : σ → List SignalUpdate → σ × List VSSSignal)
       (handles : List String) (setOk : String → Bool) (st : σ)
       (running : Bool) (inputs : List IterInput),
       ∀ e ∈ (driverRun proc handles setOk st running inputs).1,
         e.isResolve = false) ∧
    (∀ (handles : List String) (setOk : String → Bool) (s : VSSSignal),
       s.path ∉ handles →
       emissionEvent handles setOk s = Event.skipUnresolved s.path) := by
  refine ⟨?_, ?_, ?_⟩
  · intro resolveOk names
    induction names with
    | nil => exact ⟨rfl, rfl⟩
    | cons n rest ih =>
      constructor
      · simp only [resolveHandles, List.map_cons]
        rw [ih.1]
      · simp only [resolveHandles, List.filter_cons]
        by_cases hn : resolveOk n = true
        · rw [if_pos hn, hn, if_pos rfl, ih.2]
        · rw [if_neg hn, Bool.eq_false_iff.mpr hn, if_neg (by simp), ih.2]
  · intro σ proc handles setOk st running inputs e he
    exact driverRun_no_resolve proc handles setOk inputs st running e he
  · intro handles setOk s h
    unfold emissionEvent
    rw [if_neg h]

/-- Witness for claim C5 at concrete inputs. -/
theorem resolve_once_at_startup_witness :
    (resolveHandles (fun n => n = "A") ["A", "B"]).2 =
      [Event.resolve "A" true, Event.resolve "B" false] ∧
    Event.isResolve Event.stop = false ∧
    emissionEvent [] (fun _ => true) ⟨"X", true, 0⟩ =
      Event.skipUnresolved "X" := by
  refine ⟨?_, ?_, ?_⟩
  · exact (resolve_once_at_startup.1 (fun n => n = "A") ["A", "B"]).1.trans (by decide)
  · exact resolve_once_at_startup.2.1 (fun (_ : Unit) _ => ((), ([] : List VSSSignal)))
      [] (fun _ => true) () false [] Event.stop (by decide)
  · exact resolve_once_at_startup.2.2 [] (fun _ => true) ⟨"X", true, 0⟩ (by decide)

/-! ## Claim C4 -/

/-- Per-emission events under two broker outcomes differ only in the
status flag of a publish event. -/
theorem eraseOk_emissionEvent (handles : List String)
    (o1 o2 : String → Bool) (s : VSSSignal) :
    eraseOk (emissionEvent handles o1 s) = eraseOk (emissionEvent handles o2 s) := by
  unfold emissionEvent
  by_cases h1 : s.path ∈ handles
  · by_cases h2 : s.valid = true
    · rw [if_pos h1, if_pos h2, if_pos h1, if_pos h2]
      rfl
    · rw [if_pos h1, if_neg h2, if_pos h1, if_neg h2]
  · rw [if_neg h1, if_neg h1]

/-- Publish phases under two broker outcomes differ only in publish
status flags. -/
theorem eraseOk_publishPhase (handles : List String)
    (o1 o2 : String → Bool) (out : List VSSSignal) :
    (publishPhase handles o1 out).map eraseOk =
      (publishPhase handles o2 out).map eraseOk := by
  induction out with
  | nil => rfl
  | cons s rest ih =>
    simp only [publishPhase, List.map_cons] at *
    rw [eraseOk_emissionEvent handles o1 o2 s, ih]

/-- One loop iteration under two broker outcomes: the same processor
state results and the event traces differ only in publish status flags. -/
theorem eraseOk_iteration {σ : Type}
    (proc : σ → List SignalUpdate → σ × List VSSSignal)
    (handles : List String) (o1 o2 : String → Bool)
    (st : σ) (batch : List SignalUpdate) (elapsed : Nat) :
    ((iterationEvents proc handles o1 st batch elapsed).2.map eraseOk =
      (iterationEvents proc handles o2 st batch elapsed).2.map eraseOk) ∧
    (iterationEvents proc handles o1 st batch elapsed).1 =
      (iterationEvents proc handles o2 st batch elapsed).1 := by
  constructor
  · rw [iterationEvents_shape, iterationEvents_shape]
    by_cases hb : batch.isEmpty <;> by_cases he : 50 ≤ elapsed <;>
      simp [hb, he, List.map_append,
        eraseOk_publishPhase handles o1 o2]
  · rw [iterationEvents_state, iterationEvents_state]

/-- Claim C4: a broker error on publish is reported by publish_to_kuksa
returning false after the set call, and it changes nothing else: under
any two broker outcome oracles the loop produces the same events up to
publish status flags and the same exit code, so no publish failure stops
an emission loop or a tick. -/
theorem publish_failure_does_not_stop :
    (∀ sig : VSSSignal, sig.valid = true →
       publish_to_kuksa false sig = { setCalled := true, result := false }) ∧
    (∀ {σ : Type} (proc : σ → List SignalUpdate → σ × List VSSSignal)
       (handles : List String) (o1 o2 : String → Bool)
       (inputs : List IterInput) (st : σ) (running : Bool),
       ((driverRun proc handles o1 st running inputs).1.map eraseOk =
         (driverRun proc handles o2 st running inputs).1.map eraseOk) ∧
       (driverRun proc handles o1 st running inputs).2 =
         (driverRun proc handles o2 st running inputs).2) := by
  constructor
  · intro sig h
    simp [publish_to_kuksa, h]
  · intro σ proc handles o1 o2 inputs
    induction inputs with
    | nil =>
      intro st running
      cases running
      · rw [driverRun_not_running, driverRun_not_running]
        exact ⟨rfl, rfl⟩
      · rw [driverRun_nil_running, driverRun_nil_running]
        exact ⟨rfl, rfl⟩
    | cons inp rest ih =>
      intro st running
      cases running
      · rw [driverRun_not_running, driverRun_not_running]
        exact ⟨rfl, rfl⟩
      · rw [driverRun_cons, driverRun_cons]
        have hit := eraseOk_iteration proc handles o1 o2 st inp.batch inp.elapsed
        have htail := ih (iterationEvents proc handles o1 st inp.batch inp.elapsed).1
          (!inp.signalDuring)
        constructor
        · simp only [List.map_append]
          rw [hit.1, htail.1, hit.2]
        · rw [htail.2, hit.2]

/-- Witness for claim C4 at concrete inputs: a valid emission whose
publish fails, and a loop whose broker always fails versus always
succeeds. -/
theorem publish_failure_does_not_stop_witness :
    publish_to_kuksa false ⟨"Vehicle.Speed", true, 42⟩ =
      { setCalled := true, result := false } ∧
    ((driverRun (fun (_ : Unit) _ => ((), [⟨"A", true, 1⟩])) ["A"] (fun _ => false)
        () true [⟨[⟨"u", 0⟩], 0, true⟩]).1.map eraseOk =
      (driverRun (fun (_ : Unit) _ => ((), [⟨"A", true, 1⟩])) ["A"] (fun _ => true)
        () true [⟨[⟨"u", 0⟩], 0, true⟩]).1.map eraseOk) ∧
    (driverRun (fun (_ : Unit) _ => ((), [⟨"A", true, 1⟩])) ["A"] (fun _ => false)
        () true [⟨[⟨"u", 0⟩], 0, true⟩]).2 =
      (driverRun (fun (_ : Unit) _ => ((), [⟨"A", true, 1⟩])) ["A"] (fun _ => true)
        () true [⟨[⟨"u", 0⟩], 0, true⟩]).2 :=
  ⟨publish_failure_does_not_stop.1 ⟨"Vehicle.Speed", true, 42⟩ rfl,
   (publish_failure_does_not_stop.2 (fun (_ : Unit) _ => ((), [⟨"A", true, 1⟩]))
      ["A"] (fun _ => false) (fun _ => true) [⟨[⟨"u", 0⟩], 0, true⟩] () true).1,
   (publish_failure_does_not_stop.2 (fun (_ : Unit) _ => ((), [⟨"A", true, 1⟩]))
      ["A"] (fun _ => false) (fun _ => true) [⟨[⟨"u", 0⟩], 0, true⟩] () true).2⟩

/-! ## Claim C8 -/

/-- Claim C8: an interrupt or terminate signal clears the run flag (other
signals leave it alone); the flag is observed only between ticks, so when
a stop signal arrives during an iteration and none arrived before, every
iteration up to and including that one runs to completion in full, after
which the loop exits, the source is stopped, and the process returns 0;
no tick is interrupted mid-processing. -/
theorem graceful_stop :
    (signal_handler SIGINT true = false ∧ signal_handler SIGTERM true = false ∧
     ∀ sig : Nat, sig ≠ SIGINT → sig ≠ SIGTERM →
       ∀ r : Bool, signal_handler sig r = r) ∧
    (∀ {σ : Type} (proc : σ → List SignalUpdate → σ × List VSSSignal)
       (handles : List String) (setOk : String → Bool) (st : σ)
       (pre : List IterInput) (inp : IterInput) (post : List IterInput),
       (∀ i ∈ pre, i.signalDuring = false) → inp.signalDuring = true →
       driverRun proc handles setOk st true (pre ++ inp :: post) =
         ((runIters proc handles setOk st (pre ++ [inp])).2 ++ [Event.stop],
          some 0)) := by
  constructor
  · refine ⟨rfl, rfl, ?_⟩
    intro sig h1 h2 r
    unfold signal_handler
    rw [if_neg]
    rintro (h | h)
    · exact h1 h
    · exact h2 h
  · intro σ proc handles setOk st pre inp post
    induction pre generalizing st with
    | nil =>
      intro _ hsig
      rw [List.nil_append, driverRun_cons, hsig]
      rw [show (!true) = false from rfl, driverRun_not_running]
      simp [runIters]
    | cons i pre ih =>
      intro hpre hsig
      rw [List.cons_append, driverRun_cons, hpre i (List.mem_cons_self i pre),
        Bool.not_false]
      rw [ih _ (fun j hj => hpre j (List.mem_cons_of_mem i hj)) hsig]
      simp [runIters, List.append_assoc]

/-- Witness for claim C8 at concrete inputs: SIGKILL-like other signals
keep the flag, and a two-iteration schedule whose second iteration
receives the stop signal drains fully and exits 0. -/
theorem graceful_stop_witness :
    signal_handler 9 true = true ∧
    driverRun (fun (_ : Unit) _ => ((), ([] : List VSSSignal))) [] (fun _ => true)
        () true [⟨[], 0, false⟩, ⟨[], 60, true⟩] =
      ((runIters (fun (_ : Unit) _ => ((), [])) [] (fun _ => true) ()
          [⟨[], 0, false⟩, ⟨[], 60, true⟩]).2 ++ [Event.stop], some 0) := by
  constructor
  · exact graceful_stop.1.2.2 9 (by decide) (by decide) true
  · have h := graceful_stop.2 (fun (_ : Unit) _ => ((), ([] : List VSSSignal)))
      [] (fun _ => true) () [⟨[], 0, false⟩] ⟨[], 60, true⟩ []
      (by intro i hi; rcases List.mem_cons.mp hi with h | h
          · rw [h]
          · exact absurd h (List.not_mem_nil _))
      rfl
    exact h
